import Mathlib

/-!
Shallow embedding of the battleship-rs match engine.

The embedded code is `src/game.rs` (roster admission, the turn loop of
`Game::start`, shot resolution, opponent assignment) together with the
sequential accept path of `src/lib.rs::run`.  The repository's `grid.rs`,
`player.rs` and `ship.rs` are not present under `src/`; the few facts the
engine needs from them (Coordinate equality, `Ship::is_sunk`, coordinate
parsing/rendering) are modelled from the spec, each marked in its doc
comment.

Network I/O is represented by an event trace: `Ev.send j s` stands for
`self.players[j].send(s)`, `Ev.read j` for `self.players[j].read()`, and
`Ev.showGrid` for one call of `Game::show_grid` (whose rendering is
delegated to the external `Grid::as_string` collaborator).  Console
`println!` logging is not modelled.  Each participant's channel delivers
tokens already classified by `Coordinate::try_from`: a `some c` input is a
token that parsed to coordinate `c`, a `none` input is a token that failed
to parse.
-/

/-- Coordinate of `grid.rs` (file not under src): a position `(x, y)` with an
`is_hit` marker, per spec section 3. -/
structure Coordinate where
  x : Nat
  y : Nat
  is_hit : Bool
deriving Repr, DecidableEq

/-- Modelled from the spec: equality of Coordinates used by `contains`/`find`
in `Game::start` compares `(x, y)` alone, independent of `is_hit`
(spec section 3); `grid.rs`, which defines this `PartialEq`, is not under src. -/
def coordEq (a b : Coordinate) : Bool :=
  a.x == b.x && a.y == b.y

/-- Ship of `ship.rs` (file not under src): the engine only touches its
occupied coordinates. -/
structure Ship where
  coords : List Coordinate
deriving Repr, DecidableEq

/-- Modelled from the spec: `Ship::is_sunk` holds iff every occupied
Coordinate has `is_hit = true` (spec section 3, `isDestroyed`); `ship.rs` is
not under src. -/
def Ship.is_sunk (s : Ship) : Bool :=
  s.coords.all (fun c => c.is_hit)

/-- Grid of `grid.rs` (file not under src): dimensions, the owner's fleet,
and the list of shots fired at this board (spec section 3, Board). -/
structure Grid where
  width : Nat
  height : Nat
  ships : List Ship
  hits : List Coordinate
deriving Repr, DecidableEq

/-- Player of `player.rs` (file not under src): the engine uses its `name`
and its `grid`; the TCP channel is represented by the event trace. -/
structure Player where
  name : String
  grid : Grid
deriving Repr, DecidableEq

/-- `MAX_PLAYERS` of game.rs. -/
def MAX_PLAYERS : Nat := 3

/-- `Game::opponent_index` of game.rs. -/
def opponent_index (i : Nat) : Nat :=
  (i + 1) % MAX_PLAYERS

/-- Default values used for out-of-range list reads; every theorem below
carries the in-range hypotheses under which they are never produced. -/
def dummyCoord : Coordinate := ⟨0, 0, false⟩

def dummyShip : Ship := ⟨[]⟩

def dummyPlayer : Player := ⟨"", ⟨0, 0, [], []⟩⟩

/-- Trace events standing for the per-connection I/O of game.rs. -/
inductive Ev where
  | send (j : Nat) (s : String)
  | showGrid
  | read (j : Nat)
deriving Repr, DecidableEq

/-- `Game::is_ready` of game.rs. -/
def is_ready (players : List Player) : Bool :=
  players.length == MAX_PLAYERS

/-- `Game::add_player` of game.rs (lines 33-48): if the roster length is
below `MAX_PLAYERS` the player is pushed and `"Waiting for opponent...\n"`
is sent to `players[0]`; otherwise the player is pushed and every index
`0..MAX_PLAYERS` is sent its ring opponent's name. -/
def add_player (players : List Player) (p : Player) : List Player × List Ev :=
  if players.length < MAX_PLAYERS then
    (players ++ [p], [Ev.send 0 "Waiting for opponent...\n"])
  else
    let players2 := players ++ [p]
    (players2,
      (List.range MAX_PLAYERS).map (fun i =>
        Ev.send i ("Your opponent is "
          ++ (players2.getD (opponent_index i) dummyPlayer).name ++ "\n")))

/-- Embedding of `ship.coords.iter_mut().find(|c| *c == &coordinate)`
followed by `coordinate.is_hit = true`: flag the first coordinate equal
(by position) to `c`. -/
def markCoord : List Coordinate → Coordinate → List Coordinate
  | [], _ => []
  | a :: rest, c =>
    if coordEq a c then { a with is_hit := true } :: rest
    else a :: markCoord rest c

/-- `ship.coords.contains(&coordinate)` under the positional equality. -/
def containsXY (cs : List Coordinate) (c : Coordinate) : Bool :=
  cs.any (fun a => coordEq a c)

/-- Embedding of the hit detection of `Game::start` (lines 154-167): find
the first ship containing the coordinate, flag the first matching
coordinate inside it; the returned Bool is `is_hit` (whether the `find`
chain produced `Some`). -/
def markHit : List Ship → Coordinate → List Ship × Bool
  | [], _ => ([], false)
  | s :: rest, c =>
    if containsXY s.coords c then
      ({ s with coords := markCoord s.coords c } :: rest, true)
    else
      let r := markHit rest c
      (s :: r.1, r.2)

/-- Shot resolution of `Game::start` (lines 152-167): push the fired
coordinate onto the opponent's `hits` list unconditionally, then mark the
hit (if any) on the opponent's ships.  Returns the updated roster and the
`is_hit` flag. -/
def resolveShot (players : List Player) (i : Nat) (c : Coordinate) :
    List Player × Bool :=
  let oi := opponent_index i
  let opp := players.getD oi dummyPlayer
  let m := markHit opp.grid.ships c
  (players.set oi
      { opp with grid :=
        { opp.grid with hits := opp.grid.hits ++ [c], ships := m.1 } },
    m.2)

/-- Modelled from the spec: textual rendering of a Coordinate, used in the
`"<name> is firing at <coordinate>\n"` notice (the `Display` impl lives in
`grid.rs`, not under src); the exact grammar is an open question of the
spec (section 9) and no claim depends on this string's shape. -/
def coordStr (c : Coordinate) : String :=
  toString c.x ++ "," ++ toString c.y

/-- State of the turn loop: the roster, plus each participant's pending
input tokens (already classified by the `Coordinate::try_from` parse). -/
structure GState where
  players : List Player
  inputs : List (List (Option Coordinate))
deriving Repr, DecidableEq

/-- Outcome of one iteration of the inner `while` of `Game::start`. -/
inductive IterResult where
  /-- The loss check fired: the match is over, the roster was cleared. -/
  | win (winner : Nat) (st : GState) (evs : List Ev)
  /-- The input token failed to parse: `continue` with the same index. -/
  | retry (st : GState) (evs : List Ev)
  /-- A parsed shot was resolved; `isHit` decides the index advance. -/
  | shot (st : GState) (isHit : Bool) (evs : List Ev)
  /-- Model artifact: the participant's input queue is exhausted. -/
  | stuck
deriving Repr, DecidableEq

/-- The `"<name>'s turn.\n"` broadcast of `Game::start` (lines 130-136):
sent to every roster index other than the current one. -/
def othersTurnMsgs (n i : Nat) (msg : String) : List Ev :=
  (List.range n).filterMap (fun j => if j == i then none else some (Ev.send j msg))

/-- One iteration of the inner `while` of `Game::start` (lines 111-190) at
index `i`: loss check first, then grid display, prompt and turn broadcast,
then one read; an unparseable token yields `retry`, a parsed one is
resolved into a `shot`. -/
def turnIter (st : GState) (i : Nat) : IterResult :=
  let p := st.players.getD i dummyPlayer
  let oi := opponent_index i
  let oppName := (st.players.getD oi dummyPlayer).name
  if p.grid.ships.all (fun s => s.is_sunk) then
    IterResult.win oi { st with players := [] }
      [Ev.send i (oppName ++ " won.\n"), Ev.send oi "You won!\n"]
  else
    let evs1 : List Ev :=
      Ev.showGrid
        :: Ev.send i ("Your turn to shoot " ++ oppName ++ ": ")
        :: othersTurnMsgs st.players.length i (p.name ++ "'s turn.\n")
    match st.inputs.getD i [] with
    | [] => IterResult.stuck
    | tok :: rest =>
      let st1 : GState := { st with inputs := st.inputs.set i rest }
      let evs2 := evs1 ++ [Ev.read i]
      match tok with
      | none =>
        IterResult.retry st1 (evs2 ++ [Ev.send i "Your missile went to space!\n"])
      | some c =>
        let r := resolveShot st1.players i c
        let st2 : GState := { st1 with players := r.1 }
        let oppAfter := st2.players.getD oi dummyPlayer
        let remaining := (oppAfter.grid.ships.filter (fun s => !s.is_sunk)).length
        IterResult.shot st2 r.2
          (evs2
            ++ [Ev.send i (if r.2 then "Hit!\n" else "Missed.\n"),
                Ev.send i (oppAfter.name ++ " has " ++ toString remaining
                  ++ " ships remaining.\n"),
                Ev.send oi (p.name ++ " is firing at " ++ coordStr c ++ "\n")])

/-- Index of the next iteration after a completed shot: `i += 1` on a miss
(line 187-189), then the inner `while i < MAX_PLAYERS` bound and the outer
`loop` restarting at `i = 0` (lines 109-111). -/
def nextTurnIndex (i : Nat) (isHit : Bool) : Nat :=
  let i2 := if isHit then i else i + 1
  if i2 < MAX_PLAYERS then i2 else 0

/-- Fuel-bounded driver of the loop of `Game::start` (lines 109-191):
returns the emitted trace and the declared winner's index, if the loss
check fired within `fuel` iterations. -/
def runFrom : Nat → GState → Nat → List Ev × Option Nat
  | 0, _, _ => ([], none)
  | fuel + 1, st, i =>
    match turnIter st i with
    | IterResult.win w _ evs => (evs, some w)
    | IterResult.retry st1 evs =>
      let r := runFrom fuel st1 i
      (evs ++ r.1, r.2)
    | IterResult.shot st1 h evs =>
      let r := runFrom fuel st1 (nextTurnIndex i h)
      (evs ++ r.1, r.2)
    | IterResult.stuck => ([], none)

/-- Roster-mutating operations of the sequential system: the accept path of
`lib.rs::run` (lines 27-47) for a new connection, a resolved shot inside a
match, and the roster clearing at a win (game.rs line 117). -/
inductive SysOp where
  | connect (p : Player)
  | shotAt (i : Nat) (c : Coordinate)
  | matchOver
deriving Repr

/-- Sequential roster transition: `lib.rs::run` declines the connection
with `"Lobby is full."` when `is_ready` (without touching the roster) and
otherwise calls `Game::add_player`; shots go through `resolveShot`; a win
clears the roster. -/
def sysStep (players : List Player) : SysOp → List Player
  | SysOp.connect p => if is_ready players then players else (add_player players p).1
  | SysOp.shotAt i c => (resolveShot players i c).1
  | SysOp.matchOver => []

/-! ## Helper lemmas -/

theorem getD_set_self {α : Type} (l : List α) (n : Nat) (a d : α)
    (h : n < l.length) : (l.set n a).getD n d = a := by
  induction l generalizing n with
  | nil => simp at h
  | cons x xs ih =>
    cases n with
    | zero => rfl
    | succ m => exact ih m (by simpa using h)

theorem getD_set_ne {α : Type} (l : List α) (m n : Nat) (a d : α)
    (h : m ≠ n) : (l.set m a).getD n d = l.getD n d := by
  induction l generalizing m n with
  | nil => rfl
  | cons x xs ih =>
    cases m with
    | zero =>
      cases n with
      | zero => exact absurd rfl h
      | succ k => rfl
    | succ m' =>
      cases n with
      | zero => rfl
      | succ k => exact ih m' k (fun he => h (by rw [he]))

theorem markCoord_cases (cs : List Coordinate) (c : Coordinate) :
    (containsXY cs c = false ∧ markCoord cs c = cs) ∨
    (containsXY cs c = true ∧ ∃ ci, ci < cs.length ∧
      coordEq (cs.getD ci dummyCoord) c = true ∧
      markCoord cs c = cs.set ci { cs.getD ci dummyCoord with is_hit := true }) := by
  induction cs with
  | nil => exact Or.inl ⟨rfl, rfl⟩
  | cons a rest ih =>
    by_cases ha : coordEq a c = true
    · refine Or.inr ⟨?_, 0, ?_, ?_, ?_⟩
      · simp [containsXY, ha]
      · simp
      · simpa using ha
      · simp [markCoord, ha]
    · have ha' : coordEq a c = false := by
        cases hv : coordEq a c with
        | false => rfl
        | true => exact absurd hv ha
      rcases ih with ⟨h1, h2⟩ | ⟨h1, ci, hci, heq, hmk⟩
      · refine Or.inl ⟨?_, ?_⟩
        · simp only [containsXY, List.any_cons, ha']
          simpa [containsXY] using h1
        · simp [markCoord, ha', h2]
      · refine Or.inr ⟨?_, ci + 1, ?_, ?_, ?_⟩
        · simp only [containsXY, List.any_cons, ha']
          simpa [containsXY] using h1
        · simpa using Nat.succ_lt_succ hci
        · simpa using heq
        · simp [markCoord, ha', hmk]

theorem markHit_cases (ships : List Ship) (c : Coordinate) :
    ((markHit ships c).2 = false ∧ (markHit ships c).1 = ships ∧
      ships.any (fun s => containsXY s.coords c) = false) ∨
    ((markHit ships c).2 = true ∧
      ships.any (fun s => containsXY s.coords c) = true ∧
      ∃ si ci, si < ships.length ∧
        ci < (ships.getD si dummyShip).coords.length ∧
        coordEq ((ships.getD si dummyShip).coords.getD ci dummyCoord) c = true ∧
        (markHit ships c).1 = ships.set si
          { ships.getD si dummyShip with
            coords := (ships.getD si dummyShip).coords.set ci
              { (ships.getD si dummyShip).coords.getD ci dummyCoord with
                is_hit := true } }) := by
  induction ships with
  | nil => exact Or.inl ⟨rfl, rfl, rfl⟩
  | cons s rest ih =>
    by_cases hs : containsXY s.coords c = true
    · rcases markCoord_cases s.coords c with ⟨h1, _⟩ | ⟨_, ci, hci, heq, hmk⟩
      · rw [hs] at h1; exact absurd h1 (by simp)
      · refine Or.inr ⟨?_, ?_, 0, ci, ?_, ?_, ?_, ?_⟩
        · simp [markHit, hs]
        · simp [List.any_cons, hs]
        · simp
        · simpa using hci
        · simpa using heq
        · simp [markHit, hs, hmk]
    · have hs' : containsXY s.coords c = false := by
        cases hv : containsXY s.coords c with
        | false => rfl
        | true => exact absurd hv hs
      rcases ih with ⟨h1, h2, h3⟩ | ⟨h1, h2, si, ci, hsi, hci, heq, hmk⟩
      · refine Or.inl ⟨?_, ?_, ?_⟩
        · simp [markHit, hs', h1]
        · simp [markHit, hs', h2]
        · simp [List.any_cons, hs', h3]
      · refine Or.inr ⟨?_, ?_, si + 1, ci, ?_, ?_, ?_, ?_⟩
        · simp [markHit, hs', h1]
        · simp [List.any_cons, hs', h2]
        · simpa using Nat.succ_lt_succ hsi
        · simpa using hci
        · simpa using heq
        · simp [markHit, hs', hmk]

/-- Win branch of `Game::start` (lines 112-120): when every ship of player
`i` is sunk, the iteration declares `opponent_index i` the winner, sends the
two notices, and clears the roster. -/
theorem turnIter_win_eq (st : GState) (i : Nat)
    (hsunk : (st.players.getD i dummyPlayer).grid.ships.all
      (fun s => s.is_sunk) = true) :
    turnIter st i = IterResult.win (opponent_index i) { st with players := [] }
      [Ev.send i ((st.players.getD (opponent_index i) dummyPlayer).name ++ " won.\n"),
       Ev.send (opponent_index i) "You won!\n"] := by
  simp only [turnIter]
  rw [hsunk]
  exact if_pos rfl

/-- Concrete roster used by the witnesses: Alice's single ship is intact,
Bob's single ship is fully hit, Carol's fleet is empty. -/
def pAlice : Player := ⟨"Alice", ⟨10, 10, [⟨[⟨1, 1, false⟩]⟩], []⟩⟩

def pBob : Player := ⟨"Bob", ⟨10, 10, [⟨[⟨2, 2, true⟩]⟩], []⟩⟩

def pCarol : Player := ⟨"Carol", ⟨10, 10, [], []⟩⟩

def stW : GState := ⟨[pAlice, pBob, pCarol], [[], [], []]⟩

/-- C1: Win detection and declaration — for every turn-loop state, if at the
entry of the iteration for index `i` every ship on participant `i`'s own
board is sunk, the iteration (and hence the loop driver) terminates the
match declaring `(i + 1) % 3` the winner, sends exactly `"You won!\n"` to
the winner and `"<winner-name> won.\n"` to participant `i`, and clears the
roster; the emitted trace holds only those two sends, so participant `i` is
neither prompted nor read from. -/
theorem win_detection (st : GState) (i fuel : Nat)
    (_hlen : st.players.length = MAX_PLAYERS) (_hi : i < MAX_PLAYERS)
    (hsunk : (st.players.getD i dummyPlayer).grid.ships.all
      (fun s => s.is_sunk) = true) :
    turnIter st i = IterResult.win ((i + 1) % MAX_PLAYERS) { st with players := [] }
      [Ev.send i ((st.players.getD ((i + 1) % MAX_PLAYERS) dummyPlayer).name ++ " won.\n"),
       Ev.send ((i + 1) % MAX_PLAYERS) "You won!\n"] ∧
    runFrom (fuel + 1) st i =
      ([Ev.send i ((st.players.getD ((i + 1) % MAX_PLAYERS) dummyPlayer).name ++ " won.\n"),
        Ev.send ((i + 1) % MAX_PLAYERS) "You won!\n"], some ((i + 1) % MAX_PLAYERS)) := by
  have hop : opponent_index i = (i + 1) % MAX_PLAYERS := rfl
  have h1 := turnIter_win_eq st i hsunk
  rw [hop] at h1
  exact ⟨h1, by simp [runFrom, h1]⟩

/-- Witness for `win_detection`: the spec's end-to-end scenario — all of
Bob's ships (index 1) are already hit, so Carol (index 2) is declared the
winner, the pair of notices is sent, and the roster becomes empty. -/
theorem win_detection_witness :
    (stW.players.length = MAX_PLAYERS ∧ 1 < MAX_PLAYERS ∧
      (stW.players.getD 1 dummyPlayer).grid.ships.all (fun s => s.is_sunk) = true) ∧
    (turnIter stW 1 = IterResult.win ((1 + 1) % MAX_PLAYERS) { stW with players := [] }
        [Ev.send 1 ((stW.players.getD ((1 + 1) % MAX_PLAYERS) dummyPlayer).name ++ " won.\n"),
         Ev.send ((1 + 1) % MAX_PLAYERS) "You won!\n"] ∧
      runFrom (0 + 1) stW 1 =
        ([Ev.send 1 ((stW.players.getD ((1 + 1) % MAX_PLAYERS) dummyPlayer).name ++ " won.\n"),
          Ev.send ((1 + 1) % MAX_PLAYERS) "You won!\n"], some ((1 + 1) % MAX_PLAYERS))) :=
  ⟨⟨rfl, by decide, by decide⟩, win_detection stW 1 0 rfl (by decide) (by decide)⟩

/-- C10: Empty-fleet edge case — a participant whose board carries zero
ships satisfies the loss check vacuously, so the iteration that reaches
them immediately declares their opponent the winner and clears the roster,
with no prompt or read of that participant in the trace. -/
theorem empty_fleet_immediate_loss (st : GState) (i fuel : Nat)
    (_hlen : st.players.length = MAX_PLAYERS) (_hi : i < MAX_PLAYERS)
    (hempty : (st.players.getD i dummyPlayer).grid.ships = []) :
    turnIter st i = IterResult.win ((i + 1) % MAX_PLAYERS) { st with players := [] }
      [Ev.send i ((st.players.getD ((i + 1) % MAX_PLAYERS) dummyPlayer).name ++ " won.\n"),
       Ev.send ((i + 1) % MAX_PLAYERS) "You won!\n"] ∧
    runFrom (fuel + 1) st i =
      ([Ev.send i ((st.players.getD ((i + 1) % MAX_PLAYERS) dummyPlayer).name ++ " won.\n"),
        Ev.send ((i + 1) % MAX_PLAYERS) "You won!\n"], some ((i + 1) % MAX_PLAYERS)) := by
  have hsunk : (st.players.getD i dummyPlayer).grid.ships.all
      (fun s => s.is_sunk) = true := by rw [hempty]; rfl
  have hop : opponent_index i = (i + 1) % MAX_PLAYERS := rfl
  have h1 := turnIter_win_eq st i hsunk
  rw [hop] at h1
  exact ⟨h1, by simp [runFrom, h1]⟩

/-- Witness for `empty_fleet_immediate_loss`: Carol (index 2) has an empty
fleet, so Alice (index 0, her ring opponent) is declared the winner the
moment the loop reaches index 2. -/
theorem empty_fleet_immediate_loss_witness :
    (stW.players.length = MAX_PLAYERS ∧ 2 < MAX_PLAYERS ∧
      (stW.players.getD 2 dummyPlayer).grid.ships = []) ∧
    (turnIter stW 2 = IterResult.win ((2 + 1) % MAX_PLAYERS) { stW with players := [] }
        [Ev.send 2 ((stW.players.getD ((2 + 1) % MAX_PLAYERS) dummyPlayer).name ++ " won.\n"),
         Ev.send ((2 + 1) % MAX_PLAYERS) "You won!\n"] ∧
      runFrom (0 + 1) stW 2 =
        ([Ev.send 2 ((stW.players.getD ((2 + 1) % MAX_PLAYERS) dummyPlayer).name ++ " won.\n"),
          Ev.send ((2 + 1) % MAX_PLAYERS) "You won!\n"], some ((2 + 1) % MAX_PLAYERS))) :=
  ⟨⟨rfl, by decide, rfl⟩, empty_fleet_immediate_loss stW 2 0 rfl (by decide) rfl⟩

/-- C5: Ring opponent assignment — `opponent_index` maps 0 to 1, 1 to 2 and
2 to 0, and for each of the three indices the opponent's opponent is not
the index itself (the assignment is never symmetric). -/
theorem opponent_ring_cycle :
    opponent_index 0 = 1 ∧ opponent_index 1 = 2 ∧ opponent_index 2 = 0 ∧
    opponent_index (opponent_index 0) ≠ 0 ∧
    opponent_index (opponent_index 1) ≠ 1 ∧
    opponent_index (opponent_index 2) ≠ 2 := by
  decide

/-- State part of shot resolution (a helper for the C2 and C9 proofs): the
fired coordinate is appended (unconditionally, duplicates again) to
`opponent(i)`'s `hits` list; the shot is a hit iff some ship on the
opponent's board contains the coordinate under the positional equality
`coordEq`; on a miss no ship changes; on a hit exactly one occupied
coordinate — one whose position equals the fired one — gets its `is_hit`
flag set to `true` and everything else is untouched. -/
theorem shot_resolution (players players2 : List Player) (i : Nat)
    (c : Coordinate) (isHit : Bool)
    (hlen : players.length = MAX_PLAYERS) (_hi : i < MAX_PLAYERS)
    (hr : resolveShot players i c = (players2, isHit)) :
    (players2.getD (opponent_index i) dummyPlayer).grid.hits
      = (players.getD (opponent_index i) dummyPlayer).grid.hits ++ [c] ∧
    isHit = (players.getD (opponent_index i) dummyPlayer).grid.ships.any
      (fun s => containsXY s.coords c) ∧
    (isHit = false →
      (players2.getD (opponent_index i) dummyPlayer).grid.ships
        = (players.getD (opponent_index i) dummyPlayer).grid.ships) ∧
    (isHit = true → ∃ si ci,
      si < (players.getD (opponent_index i) dummyPlayer).grid.ships.length ∧
      ci < ((players.getD (opponent_index i) dummyPlayer).grid.ships.getD si
        dummyShip).coords.length ∧
      coordEq (((players.getD (opponent_index i) dummyPlayer).grid.ships.getD si
        dummyShip).coords.getD ci dummyCoord) c = true ∧
      (players2.getD (opponent_index i) dummyPlayer).grid.ships
        = (players.getD (opponent_index i) dummyPlayer).grid.ships.set si
          { (players.getD (opponent_index i) dummyPlayer).grid.ships.getD si
              dummyShip with
            coords := ((players.getD (opponent_index i) dummyPlayer).grid.ships.getD
                si dummyShip).coords.set ci
              { ((players.getD (opponent_index i) dummyPlayer).grid.ships.getD si
                  dummyShip).coords.getD ci dummyCoord with is_hit := true } }) := by
  have hoi : opponent_index i < players.length := by
    rw [hlen]; exact Nat.mod_lt _ (by decide)
  simp only [resolveShot] at hr
  injection hr with hp hh
  subst hp
  subst hh
  refine ⟨?_, ?_, ?_, ?_⟩
  · rw [getD_set_self _ _ _ _ hoi]
  · rcases markHit_cases (players.getD (opponent_index i) dummyPlayer).grid.ships c
      with ⟨h1, _, h3⟩ | ⟨h1, h2, _⟩
    · rw [h1, h3]
    · rw [h1, h2]
  · intro hmiss
    rcases markHit_cases (players.getD (opponent_index i) dummyPlayer).grid.ships c
      with ⟨_, h2, _⟩ | ⟨h1, _, _⟩
    · rw [getD_set_self _ _ _ _ hoi]
      exact h2
    · rw [h1] at hmiss
      cases hmiss
  · intro hhit
    rcases markHit_cases (players.getD (opponent_index i) dummyPlayer).grid.ships c
      with ⟨h1, _, _⟩ | ⟨_, _, si, ci, hsi, hci, heq, hmk⟩
    · rw [h1] at hhit
      cases hhit
    · refine ⟨si, ci, hsi, hci, heq, ?_⟩
      rw [getD_set_self _ _ _ _ hoi]
      exact hmk

/-- Fired coordinate and post-shot opponent used by the shot witnesses:
player 0 (Alice) fires at (2,2) on Bob's board, a hit on an already-hit
coordinate, which is appended to Bob's hits and still reported as a hit. -/
def cW : Coordinate := ⟨2, 2, false⟩

def pBobShot : Player := ⟨"Bob", ⟨10, 10, [⟨[⟨2, 2, true⟩]⟩], [⟨2, 2, false⟩]⟩⟩

/-- Sanity instance of `shot_resolution`: Alice (index 0) fires at (2,2);
Bob's ship occupies it (already hit), so the shot appends to Bob's hits
list and reports a hit. -/
theorem shot_resolution_witness :
    ([pAlice, pBob, pCarol].length = MAX_PLAYERS ∧ 0 < MAX_PLAYERS ∧
      resolveShot [pAlice, pBob, pCarol] 0 cW = ([pAlice, pBobShot, pCarol], true)) ∧
    (([pAlice, pBobShot, pCarol].getD (opponent_index 0) dummyPlayer).grid.hits
      = ([pAlice, pBob, pCarol].getD (opponent_index 0) dummyPlayer).grid.hits ++ [cW] ∧
    true = ([pAlice, pBob, pCarol].getD (opponent_index 0) dummyPlayer).grid.ships.any
      (fun s => containsXY s.coords cW) ∧
    (true = false →
      ([pAlice, pBobShot, pCarol].getD (opponent_index 0) dummyPlayer).grid.ships
        = ([pAlice, pBob, pCarol].getD (opponent_index 0) dummyPlayer).grid.ships) ∧
    (true = true → ∃ si ci,
      si < ([pAlice, pBob, pCarol].getD (opponent_index 0) dummyPlayer).grid.ships.length ∧
      ci < (([pAlice, pBob, pCarol].getD (opponent_index 0) dummyPlayer).grid.ships.getD si
        dummyShip).coords.length ∧
      coordEq ((([pAlice, pBob, pCarol].getD (opponent_index 0) dummyPlayer).grid.ships.getD si
        dummyShip).coords.getD ci dummyCoord) cW = true ∧
      ([pAlice, pBobShot, pCarol].getD (opponent_index 0) dummyPlayer).grid.ships
        = ([pAlice, pBob, pCarol].getD (opponent_index 0) dummyPlayer).grid.ships.set si
          { ([pAlice, pBob, pCarol].getD (opponent_index 0) dummyPlayer).grid.ships.getD si
              dummyShip with
            coords := (([pAlice, pBob, pCarol].getD (opponent_index 0) dummyPlayer).grid.ships.getD
                si dummyShip).coords.set ci
              { (([pAlice, pBob, pCarol].getD (opponent_index 0) dummyPlayer).grid.ships.getD si
                  dummyShip).coords.getD ci dummyCoord with is_hit := true } })) :=
  ⟨⟨rfl, by decide, rfl⟩,
    shot_resolution [pAlice, pBob, pCarol] [pAlice, pBobShot, pCarol] 0 cW true
      rfl (by decide) rfl⟩

/-- C9: Shot frame condition — resolving a parsed shot by participant `i`
mutates only `opponent(i)`'s grid: the roster length is unchanged, every
player at an index other than `opponent(i)` is entirely unchanged (in
particular the shooter's and the third participant's grids), every player's
name is unchanged, exactly one element is appended to the opponent's hits
list, and the opponent's ships are either unchanged or changed at exactly
one coordinate position, whose `is_hit` flag is set to `true`. -/
theorem shot_frame (players players2 : List Player) (i : Nat)
    (c : Coordinate) (isHit : Bool)
    (hlen : players.length = MAX_PLAYERS) (_hi : i < MAX_PLAYERS)
    (hr : resolveShot players i c = (players2, isHit)) :
    players2.length = players.length ∧
    (∀ j, j ≠ opponent_index i →
      players2.getD j dummyPlayer = players.getD j dummyPlayer) ∧
    (∀ j, (players2.getD j dummyPlayer).name = (players.getD j dummyPlayer).name) ∧
    (players2.getD (opponent_index i) dummyPlayer).grid.hits
      = (players.getD (opponent_index i) dummyPlayer).grid.hits ++ [c] ∧
    ((players2.getD (opponent_index i) dummyPlayer).grid.ships
        = (players.getD (opponent_index i) dummyPlayer).grid.ships ∨
      ∃ si ci,
        (players2.getD (opponent_index i) dummyPlayer).grid.ships
          = (players.getD (opponent_index i) dummyPlayer).grid.ships.set si
            { (players.getD (opponent_index i) dummyPlayer).grid.ships.getD si
                dummyShip with
              coords := ((players.getD (opponent_index i) dummyPlayer).grid.ships.getD
                  si dummyShip).coords.set ci
                { ((players.getD (opponent_index i) dummyPlayer).grid.ships.getD si
                    dummyShip).coords.getD ci dummyCoord with is_hit := true } }) := by
  have hoi : opponent_index i < players.length := by
    rw [hlen]; exact Nat.mod_lt _ (by decide)
  simp only [resolveShot] at hr
  injection hr with hp hh
  subst hp
  refine ⟨?_, ?_, ?_, ?_, ?_⟩
  · exact List.length_set players _ _
  · intro j hj
    exact getD_set_ne _ _ _ _ _ (fun he => hj he.symm)
  · intro j
    by_cases hj : j = opponent_index i
    · subst hj
      rw [getD_set_self _ _ _ _ hoi]
    · rw [getD_set_ne _ _ _ _ _ (fun he => hj he.symm)]
  · rw [getD_set_self _ _ _ _ hoi]
  · rcases markHit_cases (players.getD (opponent_index i) dummyPlayer).grid.ships c
      with ⟨_, h2, _⟩ | ⟨_, _, si, ci, _, _, _, hmk⟩
    · left
      rw [getD_set_self _ _ _ _ hoi]
      exact h2
    · right
      refine ⟨si, ci, ?_⟩
      rw [getD_set_self _ _ _ _ hoi]
      exact hmk

/-- Witness for `shot_frame`: the same concrete shot as the
`shot_resolution` witness, checked against the frame conclusion. -/
theorem shot_frame_witness :
    ([pAlice, pBob, pCarol].length = MAX_PLAYERS ∧ 0 < MAX_PLAYERS ∧
      resolveShot [pAlice, pBob, pCarol] 0 cW = ([pAlice, pBobShot, pCarol], true)) ∧
    ([pAlice, pBobShot, pCarol].length = [pAlice, pBob, pCarol].length ∧
    (∀ j, j ≠ opponent_index 0 →
      [pAlice, pBobShot, pCarol].getD j dummyPlayer
        = [pAlice, pBob, pCarol].getD j dummyPlayer) ∧
    (∀ j, ([pAlice, pBobShot, pCarol].getD j dummyPlayer).name
        = ([pAlice, pBob, pCarol].getD j dummyPlayer).name) ∧
    ([pAlice, pBobShot, pCarol].getD (opponent_index 0) dummyPlayer).grid.hits
      = ([pAlice, pBob, pCarol].getD (opponent_index 0) dummyPlayer).grid.hits ++ [cW] ∧
    (([pAlice, pBobShot, pCarol].getD (opponent_index 0) dummyPlayer).grid.ships
        = ([pAlice, pBob, pCarol].getD (opponent_index 0) dummyPlayer).grid.ships ∨
      ∃ si ci,
        ([pAlice, pBobShot, pCarol].getD (opponent_index 0) dummyPlayer).grid.ships
          = ([pAlice, pBob, pCarol].getD (opponent_index 0) dummyPlayer).grid.ships.set si
            { ([pAlice, pBob, pCarol].getD (opponent_index 0) dummyPlayer).grid.ships.getD si
                dummyShip with
              coords := (([pAlice, pBob, pCarol].getD (opponent_index 0) dummyPlayer).grid.ships.getD
                  si dummyShip).coords.set ci
                { (([pAlice, pBob, pCarol].getD (opponent_index 0) dummyPlayer).grid.ships.getD si
                    dummyShip).coords.getD ci dummyCoord with is_hit := true } })) :=
  ⟨⟨rfl, by decide, rfl⟩,
    shot_frame [pAlice, pBob, pCarol] [pAlice, pBobShot, pCarol] 0 cW true
      rfl (by decide) rfl⟩

/-- C3: Turn advancement — for every completed (successfully parsed) shot,
the index of the next loop iteration is `nextTurnIndex i isHit` (the
`i += 1` of a miss combined with the `while i < MAX_PLAYERS` bound and the
outer loop restarting at 0): a hit leaves the index unchanged and a miss
advances it by exactly one position modulo 3, with wrap-around from 2 to 0;
the next iteration re-enters `turnIter`, whose first step is the loss
check. -/
theorem turn_advancement (st st1 : GState) (i fuel : Nat) (h : Bool)
    (evs : List Ev) (hi : i < MAX_PLAYERS)
    (hstep : turnIter st i = IterResult.shot st1 h evs) :
    nextTurnIndex i true = i ∧
    nextTurnIndex i false = (i + 1) % MAX_PLAYERS ∧
    runFrom (fuel + 1) st i
      = (evs ++ (runFrom fuel st1 (if h then i else (i + 1) % MAX_PLAYERS)).1,
         (runFrom fuel st1 (if h then i else (i + 1) % MAX_PLAYERS)).2) := by
  have hi3 : i < 3 := hi
  have ht : nextTurnIndex i true = i := by
    simp only [nextTurnIndex]
    simp only [if_true]
    exact if_pos hi
  have hf : nextTurnIndex i false = (i + 1) % MAX_PLAYERS := by
    simp only [nextTurnIndex, MAX_PLAYERS]
    simp only [Bool.false_eq_true, if_false]
    split <;> omega
  have hx : nextTurnIndex i h = if h then i else (i + 1) % MAX_PLAYERS := by
    cases h
    · simpa using hf
    · simpa using ht
  refine ⟨ht, hf, ?_⟩
  simp only [runFrom, hstep, hx]

/-- Concrete turn-loop states for the advancement and invalid-input
witnesses: Alice fires a parsed shot at (2,2) (a hit), or submits an
unparseable token. -/
def stShotW : GState := ⟨[pAlice, pBob, pCarol], [[some cW], [], []]⟩

def stShotW1 : GState := ⟨[pAlice, pBobShot, pCarol], [[], [], []]⟩

def evsShotW : List Ev :=
  [Ev.showGrid, Ev.send 0 "Your turn to shoot Bob: ",
   Ev.send 1 "Alice's turn.\n", Ev.send 2 "Alice's turn.\n", Ev.read 0,
   Ev.send 0 "Hit!\n", Ev.send 0 "Bob has 0 ships remaining.\n",
   Ev.send 1 "Alice is firing at 2,2\n"]

/-- Witness for `turn_advancement`: Alice's hit at (2,2) keeps the next
index at 0, and a miss would advance it to 1. -/
theorem turn_advancement_witness :
    (0 < MAX_PLAYERS ∧ turnIter stShotW 0 = IterResult.shot stShotW1 true evsShotW) ∧
    (nextTurnIndex 0 true = 0 ∧
     nextTurnIndex 0 false = (0 + 1) % MAX_PLAYERS ∧
     runFrom (0 + 1) stShotW 0
       = (evsShotW ++ (runFrom 0 stShotW1 (if true then 0 else (0 + 1) % MAX_PLAYERS)).1,
          (runFrom 0 stShotW1 (if true then 0 else (0 + 1) % MAX_PLAYERS)).2)) :=
  ⟨⟨by decide, rfl⟩,
    turn_advancement stShotW stShotW1 0 0 true evsShotW (by decide) rfl⟩

/-- C4: Invalid-input atomicity — when the token read from participant `i`
fails to parse, the iteration ends in `retry`: `"Your missile went to
space!\n"` is sent to `i`, the roster (every board) is byte-for-byte
unchanged, and the loop re-enters the iteration with the same index `i`. -/
theorem invalid_input_atomicity (st : GState) (i fuel : Nat)
    (rest : List (Option Coordinate))
    (_hlen : st.players.length = MAX_PLAYERS) (_hi : i < MAX_PLAYERS)
    (hnot : (st.players.getD i dummyPlayer).grid.ships.all
      (fun s => s.is_sunk) = false)
    (hinput : st.inputs.getD i [] = none :: rest) :
    turnIter st i = IterResult.retry { st with inputs := st.inputs.set i rest }
      (Ev.showGrid
        :: Ev.send i ("Your turn to shoot "
             ++ (st.players.getD (opponent_index i) dummyPlayer).name ++ ": ")
        :: (othersTurnMsgs st.players.length i
              ((st.players.getD i dummyPlayer).name ++ "'s turn.\n")
            ++ [Ev.read i] ++ [Ev.send i "Your missile went to space!\n"])) ∧
    ({ st with inputs := st.inputs.set i rest } : GState).players = st.players ∧
    runFrom (fuel + 1) st i
      = ((Ev.showGrid
          :: Ev.send i ("Your turn to shoot "
               ++ (st.players.getD (opponent_index i) dummyPlayer).name ++ ": ")
          :: (othersTurnMsgs st.players.length i
                ((st.players.getD i dummyPlayer).name ++ "'s turn.\n")
              ++ [Ev.read i] ++ [Ev.send i "Your missile went to space!\n"]))
         ++ (runFrom fuel { st with inputs := st.inputs.set i rest } i).1,
         (runFrom fuel { st with inputs := st.inputs.set i rest } i).2) := by
  have h1 : turnIter st i = IterResult.retry { st with inputs := st.inputs.set i rest }
      (Ev.showGrid
        :: Ev.send i ("Your turn to shoot "
             ++ (st.players.getD (opponent_index i) dummyPlayer).name ++ ": ")
        :: (othersTurnMsgs st.players.length i
              ((st.players.getD i dummyPlayer).name ++ "'s turn.\n")
            ++ [Ev.read i] ++ [Ev.send i "Your missile went to space!\n"])) := by
    simp only [turnIter]
    rw [hnot]
    rw [if_neg (show ¬(false = true) by decide)]
    rw [hinput]
    rfl
  exact ⟨h1, rfl, by simp only [runFrom, h1]⟩

/-- Concrete state for the invalid-input witness: Alice submits a token
that fails to parse as a Coordinate. -/
def stRetryW : GState := ⟨[pAlice, pBob, pCarol], [[none], [], []]⟩

/-- Witness for `invalid_input_atomicity`: Alice's unparseable token leaves
every board untouched and the loop re-enters at index 0. -/
theorem invalid_input_atomicity_witness :
    (stRetryW.players.length = MAX_PLAYERS ∧ 0 < MAX_PLAYERS ∧
      (stRetryW.players.getD 0 dummyPlayer).grid.ships.all
        (fun s => s.is_sunk) = false ∧
      stRetryW.inputs.getD 0 [] = none :: []) ∧
    (turnIter stRetryW 0 = IterResult.retry
        { stRetryW with inputs := stRetryW.inputs.set 0 [] }
        (Ev.showGrid
          :: Ev.send 0 ("Your turn to shoot "
               ++ (stRetryW.players.getD (opponent_index 0) dummyPlayer).name ++ ": ")
          :: (othersTurnMsgs stRetryW.players.length 0
                ((stRetryW.players.getD 0 dummyPlayer).name ++ "'s turn.\n")
              ++ [Ev.read 0] ++ [Ev.send 0 "Your missile went to space!\n"])) ∧
      ({ stRetryW with inputs := stRetryW.inputs.set 0 [] } : GState).players
        = stRetryW.players ∧
      runFrom (0 + 1) stRetryW 0
        = ((Ev.showGrid
            :: Ev.send 0 ("Your turn to shoot "
                 ++ (stRetryW.players.getD (opponent_index 0) dummyPlayer).name ++ ": ")
            :: (othersTurnMsgs stRetryW.players.length 0
                  ((stRetryW.players.getD 0 dummyPlayer).name ++ "'s turn.\n")
                ++ [Ev.read 0] ++ [Ev.send 0 "Your missile went to space!\n"]))
           ++ (runFrom 0 { stRetryW with inputs := stRetryW.inputs.set 0 [] } 0).1,
           (runFrom 0 { stRetryW with inputs := stRetryW.inputs.set 0 [] } 0).2)) :=
  ⟨⟨rfl, by decide, by decide, rfl⟩,
    invalid_input_atomicity stRetryW 0 0 [] rfl (by decide) (by decide) rfl⟩

/-- Each sequential roster operation preserves the capacity bound. -/
theorem sysStep_length_le (g : List Player) (op : SysOp)
    (hg : g.length ≤ MAX_PLAYERS) : (sysStep g op).length ≤ MAX_PLAYERS := by
  cases op with
  | connect p =>
    simp only [sysStep]
    by_cases hready : is_ready g = true
    · rw [if_pos hready]
      exact hg
    · rw [if_neg hready]
      have hne : g.length ≠ MAX_PLAYERS := by
        intro he
        exact hready (by simp [is_ready, he])
      have hlt : g.length < MAX_PLAYERS := Nat.lt_of_le_of_ne hg hne
      simp only [add_player]
      rw [if_pos hlt]
      simp only [List.length_append, List.length_cons, List.length_nil]
      omega
  | shotAt i c =>
    simp only [sysStep, resolveShot, List.length_set]
    exact hg
  | matchOver =>
    simp only [sysStep, List.length_nil]
    omega

/-- The capacity bound is an invariant of every operation sequence. -/
theorem roster_length_bound (ops : List SysOp) :
    ∀ g : List Player, g.length ≤ MAX_PLAYERS →
      (List.foldl sysStep g ops).length ≤ MAX_PLAYERS := by
  induction ops with
  | nil =>
    intro g hg
    simpa using hg
  | cons op rest ih =>
    intro g hg
    simp only [List.foldl_cons]
    exact ih (sysStep g op) (sysStep_length_le g op hg)

/-- C8: Admission capacity invariant — a connection arriving while the
roster already holds `MAX_PLAYERS` participants is declined on the accept
path of `lib.rs::run` before any roster mutation, and along every sequence
of admissions, shots and match conclusions the roster length never exceeds
`MAX_PLAYERS` (the accept path and the join are serialized here, per the
lock discipline of the spec). -/
theorem admission_capacity (g : List Player) (ops : List SysOp)
    (hg : g.length ≤ MAX_PLAYERS) :
    (∀ p, is_ready g = true → sysStep g (SysOp.connect p) = g) ∧
    (List.foldl sysStep g ops).length ≤ MAX_PLAYERS := by
  refine ⟨fun p hready => ?_, roster_length_bound ops g hg⟩
  simp only [sysStep]
  rw [if_pos hready]

/-- Operation sequence for the capacity witness: three admissions fill the
roster, a fourth connection arrives at capacity, then the match ends. -/
def opsW : List SysOp :=
  [SysOp.connect pAlice, SysOp.connect pBob, SysOp.connect pCarol,
   SysOp.connect pAlice, SysOp.matchOver]

/-- Witness for `admission_capacity`: starting from the empty roster, the
bound holds across three admissions, a declined fourth connection and the
match-over clearing. -/
theorem admission_capacity_witness :
    (([] : List Player).length ≤ MAX_PLAYERS) ∧
    ((∀ p, is_ready ([] : List Player) = true → sysStep [] (SysOp.connect p) = []) ∧
     (List.foldl sysStep [] opsW).length ≤ MAX_PLAYERS) :=
  ⟨by decide, admission_capacity [] opsW (by decide)⟩

/-- C6, evaluated at the failing admission: the join that fills the roster
from 2 to 3 participants takes the `len < MAX_PLAYERS` branch of
`Game::add_player` (the length test precedes the push), so it sends only
`"Waiting for opponent...\n"` to participant 0 and no
`"Your opponent is <name>\n"` broadcast is emitted to anyone. -/
theorem filling_join_sends_waiting_only :
    add_player [pAlice, pBob] pCarol
      = ([pAlice, pBob, pCarol], [Ev.send 0 "Waiting for opponent...\n"]) := rfl

/-- C7, evaluated at the failing admission: the second join (roster below
capacity) also sends `"Waiting for opponent...\n"` to participant 0,
although the claim allows that notice as a consequence of the first join
only. -/
theorem second_join_sends_waiting_notice :
    add_player [pAlice] pBob
      = ([pAlice, pBob], [Ev.send 0 "Waiting for opponent...\n"]) := rfl

/-- C2: Shot resolution — for every parsed shot read by participant `i`
inside the turn loop, the fired coordinate is appended (unconditionally,
duplicates again) to `opponent(i)`'s `hits` list; the shot is a hit iff
some ship on the opponent's board contains the coordinate under the
positional equality `coordEq` (so an already-hit occupied coordinate still
reports a hit); on a miss no ship changes; on a hit exactly one occupied
coordinate gets its `is_hit` flag set to `true`; and the iteration's
emitted trace sends the shooter `"Hit!\n"` exactly when the shot hit and
`"Missed.\n"` exactly when it missed. -/
theorem shot_resolution_and_notice (st : GState) (players2 : List Player)
    (i : Nat) (c : Coordinate) (isHit : Bool) (rest : List (Option Coordinate))
    (hlen : st.players.length = MAX_PLAYERS) (hi : i < MAX_PLAYERS)
    (hnot : (st.players.getD i dummyPlayer).grid.ships.all
      (fun s => s.is_sunk) = false)
    (hinput : st.inputs.getD i [] = some c :: rest)
    (hr : resolveShot st.players i c = (players2, isHit)) :
    (players2.getD (opponent_index i) dummyPlayer).grid.hits
      = (st.players.getD (opponent_index i) dummyPlayer).grid.hits ++ [c] ∧
    isHit = (st.players.getD (opponent_index i) dummyPlayer).grid.ships.any
      (fun s => containsXY s.coords c) ∧
    (isHit = false →
      (players2.getD (opponent_index i) dummyPlayer).grid.ships
        = (st.players.getD (opponent_index i) dummyPlayer).grid.ships) ∧
    (isHit = true → ∃ si ci,
      si < (st.players.getD (opponent_index i) dummyPlayer).grid.ships.length ∧
      ci < ((st.players.getD (opponent_index i) dummyPlayer).grid.ships.getD si
        dummyShip).coords.length ∧
      coordEq (((st.players.getD (opponent_index i) dummyPlayer).grid.ships.getD si
        dummyShip).coords.getD ci dummyCoord) c = true ∧
      (players2.getD (opponent_index i) dummyPlayer).grid.ships
        = (st.players.getD (opponent_index i) dummyPlayer).grid.ships.set si
          { (st.players.getD (opponent_index i) dummyPlayer).grid.ships.getD si
              dummyShip with
            coords := ((st.players.getD (opponent_index i) dummyPlayer).grid.ships.getD
                si dummyShip).coords.set ci
              { ((st.players.getD (opponent_index i) dummyPlayer).grid.ships.getD si
                  dummyShip).coords.getD ci dummyCoord with is_hit := true } }) ∧
    turnIter st i = IterResult.shot
      { players := players2, inputs := st.inputs.set i rest } isHit
      (Ev.showGrid
        :: Ev.send i ("Your turn to shoot "
             ++ (st.players.getD (opponent_index i) dummyPlayer).name ++ ": ")
        :: (othersTurnMsgs st.players.length i
              ((st.players.getD i dummyPlayer).name ++ "'s turn.\n")
            ++ [Ev.read i]
            ++ [Ev.send i (if isHit then "Hit!\n" else "Missed.\n"),
                Ev.send i ((players2.getD (opponent_index i) dummyPlayer).name
                  ++ " has "
                  ++ toString (List.filter (fun s => !s.is_sunk)
                       (players2.getD (opponent_index i) dummyPlayer).grid.ships).length
                  ++ " ships remaining.\n"),
                Ev.send (opponent_index i)
                  ((st.players.getD i dummyPlayer).name ++ " is firing at "
                    ++ coordStr c ++ "\n")])) := by
  obtain ⟨h1, h2, h3, h4⟩ := shot_resolution st.players players2 i c isHit hlen hi hr
  refine ⟨h1, h2, h3, h4, ?_⟩
  have ht : turnIter st i = IterResult.shot
      { players := (resolveShot st.players i c).1, inputs := st.inputs.set i rest }
      (resolveShot st.players i c).2
      (Ev.showGrid
        :: Ev.send i ("Your turn to shoot "
             ++ (st.players.getD (opponent_index i) dummyPlayer).name ++ ": ")
        :: (othersTurnMsgs st.players.length i
              ((st.players.getD i dummyPlayer).name ++ "'s turn.\n")
            ++ [Ev.read i]
            ++ [Ev.send i (if (resolveShot st.players i c).2 then "Hit!\n" else "Missed.\n"),
                Ev.send i (((resolveShot st.players i c).1.getD (opponent_index i)
                    dummyPlayer).name
                  ++ " has "
                  ++ toString (List.filter (fun s => !s.is_sunk)
                       ((resolveShot st.players i c).1.getD (opponent_index i)
                         dummyPlayer).grid.ships).length
                  ++ " ships remaining.\n"),
                Ev.send (opponent_index i)
                  ((st.players.getD i dummyPlayer).name ++ " is firing at "
                    ++ coordStr c ++ "\n")])) := by
    simp only [turnIter]
    rw [hnot]
    rw [if_neg (show ¬(false = true) by decide)]
    rw [hinput]
    rfl
  rw [hr] at ht
  exact ht

/-- Witness for `shot_resolution_and_notice`: Alice (index 0) reads the
parsed token (2,2) and fires at Bob's board; the shot hits, Bob's hits list
gains the coordinate, and the trace sends Alice `"Hit!\n"`. -/
theorem shot_resolution_and_notice_witness :
    (stShotW.players.length = MAX_PLAYERS ∧ 0 < MAX_PLAYERS ∧
      (stShotW.players.getD 0 dummyPlayer).grid.ships.all
        (fun s => s.is_sunk) = false ∧
      stShotW.inputs.getD 0 [] = some cW :: [] ∧
      resolveShot stShotW.players 0 cW = ([pAlice, pBobShot, pCarol], true)) ∧
    (([pAlice, pBobShot, pCarol].getD (opponent_index 0) dummyPlayer).grid.hits
      = (stShotW.players.getD (opponent_index 0) dummyPlayer).grid.hits ++ [cW] ∧
    true = (stShotW.players.getD (opponent_index 0) dummyPlayer).grid.ships.any
      (fun s => containsXY s.coords cW) ∧
    (true = false →
      ([pAlice, pBobShot, pCarol].getD (opponent_index 0) dummyPlayer).grid.ships
        = (stShotW.players.getD (opponent_index 0) dummyPlayer).grid.ships) ∧
    (true = true → ∃ si ci,
      si < (stShotW.players.getD (opponent_index 0) dummyPlayer).grid.ships.length ∧
      ci < ((stShotW.players.getD (opponent_index 0) dummyPlayer).grid.ships.getD si
        dummyShip).coords.length ∧
      coordEq (((stShotW.players.getD (opponent_index 0) dummyPlayer).grid.ships.getD si
        dummyShip).coords.getD ci dummyCoord) cW = true ∧
      ([pAlice, pBobShot, pCarol].getD (opponent_index 0) dummyPlayer).grid.ships
        = (stShotW.players.getD (opponent_index 0) dummyPlayer).grid.ships.set si
          { (stShotW.players.getD (opponent_index 0) dummyPlayer).grid.ships.getD si
              dummyShip with
            coords := ((stShotW.players.getD (opponent_index 0) dummyPlayer).grid.ships.getD
                si dummyShip).coords.set ci
              { ((stShotW.players.getD (opponent_index 0) dummyPlayer).grid.ships.getD si
                  dummyShip).coords.getD ci dummyCoord with is_hit := true } }) ∧
    turnIter stShotW 0 = IterResult.shot
      { players := [pAlice, pBobShot, pCarol], inputs := stShotW.inputs.set 0 [] } true
      (Ev.showGrid
        :: Ev.send 0 ("Your turn to shoot "
             ++ (stShotW.players.getD (opponent_index 0) dummyPlayer).name ++ ": ")
        :: (othersTurnMsgs stShotW.players.length 0
              ((stShotW.players.getD 0 dummyPlayer).name ++ "'s turn.\n")
            ++ [Ev.read 0]
            ++ [Ev.send 0 (if true then "Hit!\n" else "Missed.\n"),
                Ev.send 0 (([pAlice, pBobShot, pCarol].getD (opponent_index 0)
                    dummyPlayer).name
                  ++ " has "
                  ++ toString (List.filter (fun s => !s.is_sunk)
                       ([pAlice, pBobShot, pCarol].getD (opponent_index 0)
                         dummyPlayer).grid.ships).length
                  ++ " ships remaining.\n"),
                Ev.send (opponent_index 0)
                  ((stShotW.players.getD 0 dummyPlayer).name ++ " is firing at "
                    ++ coordStr cW ++ "\n")]))) :=
  ⟨⟨rfl, by decide, by decide, rfl, rfl⟩,
    shot_resolution_and_notice stShotW [pAlice, pBobShot, pCarol] 0 cW true []
      rfl (by decide) (by decide) rfl rfl⟩
